import Mathlib

/-!
Shallow embedding of the TGA encoder (src/src/lib.rs).

The Rust code serializes an `Image` (pixel buffer + dimensions) as an
uncompressed 32-bit true-color TGA file: an 18-byte header, the raw pixel
bytes, and a 26-byte footer.  Bytes are modelled as `Nat` values (< 256 by
construction of the primitive writers), multi-byte integers are written
little-endian, and the output sink is modelled explicitly so that write
failures can be reasoned about.
-/

namespace Tga

/-- Little-endian encoding of a u16 value (2 bytes). -/
def le16 (x : Nat) : List Nat := [x % 256, x / 256 % 256]

/-- Little-endian encoding of a u32 value (4 bytes). -/
def le32 (x : Nat) : List Nat :=
  [x % 256, x / 256 % 256, x / 2 ^ 16 % 256, x / 2 ^ 24 % 256]

/-- The 16 ASCII bytes of the footer signature `TRUEVISION-XFILE`. -/
def SIGNATURE : List Nat :=
  [84, 82, 85, 69, 86, 73, 83, 73, 79, 78, 45, 88, 70, 73, 76, 69]

/-- `BitDepth(u8)` from the source. -/
structure BitDepth where
  val : Nat
  deriving DecidableEq, Repr

/-- `BitDepth::B8`. -/
def BitDepth.B8 : BitDepth := ⟨8⟩

/-- `BitDepth::B32`. -/
def BitDepth.B32 : BitDepth := ⟨32⟩

/-- `impl Default for BitDepth`: the default is `B32`. -/
def BitDepth.default : BitDepth := BitDepth.B32

/-- `ColorMapType(u8)` from the source. -/
structure ColorMapType where
  val : Nat
  deriving DecidableEq, Repr

/-- `ColorMapType::ABSENT`. -/
def ColorMapType.ABSENT : ColorMapType := ⟨0⟩

/-- `impl Default for ColorMapType`: the default is `ABSENT`. -/
def ColorMapType.default : ColorMapType := ColorMapType.ABSENT

/-- `ImageType(u8)` from the source. -/
structure ImageType where
  val : Nat
  deriving DecidableEq, Repr

/-- `ImageType::TRUE_COLOR`. -/
def ImageType.TRUE_COLOR : ImageType := ⟨2⟩

/-- `impl Default for ImageType`: the default is `TRUE_COLOR`. -/
def ImageType.default : ImageType := ImageType.TRUE_COLOR

/-- `enum HorizontalOrdering` from the source. -/
inductive HorizontalOrdering where
  | LeftToRight
  | RightToLeft
  deriving DecidableEq, Repr

/-- `impl Default for HorizontalOrdering`: the default is `LeftToRight`. -/
def HorizontalOrdering.default : HorizontalOrdering := HorizontalOrdering.LeftToRight

/-- `enum VerticalOrdering` from the source. -/
inductive VerticalOrdering where
  | BottomToTop
  | TopToBottom
  deriving DecidableEq, Repr

/-- `impl Default for VerticalOrdering`: the default is `BottomToTop`. -/
def VerticalOrdering.default : VerticalOrdering := VerticalOrdering.BottomToTop

/-- `ImageDescriptor(u8)` from the source. -/
structure ImageDescriptor where
  val : Nat
  deriving DecidableEq, Repr

/-- Derived `Default` for `ImageDescriptor`: the zero byte. -/
def ImageDescriptor.default : ImageDescriptor := ⟨0⟩

/-- `struct ImageDescriptorBuilder` from the source. -/
structure ImageDescriptorBuilder where
  alpha_depth : BitDepth
  horizontal_ordering : HorizontalOrdering
  vertical_ordering : VerticalOrdering
  deriving DecidableEq, Repr

/-- `ImageDescriptorBuilder::HORIZONTAL_ORDERING_BITMASK = 0b00010000`. -/
def ImageDescriptorBuilder.HORIZONTAL_ORDERING_BITMASK : Nat := 16

/-- `ImageDescriptorBuilder::VERTICAL_ORDERING_BITMASK = 0b00100000`. -/
def ImageDescriptorBuilder.VERTICAL_ORDERING_BITMASK : Nat := 32

/-- Derived `Default` for `ImageDescriptorBuilder`: each field takes its
own default. -/
def ImageDescriptorBuilder.default : ImageDescriptorBuilder :=
  ⟨BitDepth.default, HorizontalOrdering.default, VerticalOrdering.default⟩

/-- `ImageDescriptorBuilder::new()`. -/
def ImageDescriptorBuilder.new : ImageDescriptorBuilder :=
  ImageDescriptorBuilder.default

/-- `ImageDescriptorBuilder::build`: start from 0, OR in the alpha depth,
then OR in the bit-4 mask when horizontal ordering is right-to-left and the
bit-5 mask when vertical ordering is top-to-bottom. -/
def ImageDescriptorBuilder.build (b : ImageDescriptorBuilder) : ImageDescriptor :=
  let value := 0
  let value := value ||| b.alpha_depth.val
  let value :=
    if b.horizontal_ordering = HorizontalOrdering.RightToLeft then
      value ||| ImageDescriptorBuilder.HORIZONTAL_ORDERING_BITMASK
    else value
  let value :=
    if b.vertical_ordering = VerticalOrdering.TopToBottom then
      value ||| ImageDescriptorBuilder.VERTICAL_ORDERING_BITMASK
    else value
  ⟨value⟩

/-- `ImageDescriptorBuilder::with_alpha`. -/
def ImageDescriptorBuilder.with_alpha (b : ImageDescriptorBuilder)
    (depth : BitDepth) : ImageDescriptorBuilder :=
  { b with alpha_depth := depth }

/-- `ImageDescriptorBuilder::with_horizontal_ordering`. -/
def ImageDescriptorBuilder.with_horizontal_ordering (b : ImageDescriptorBuilder)
    (ordering : HorizontalOrdering) : ImageDescriptorBuilder :=
  { b with horizontal_ordering := ordering }

/-- `ImageDescriptorBuilder::with_vertical_ordering`. -/
def ImageDescriptorBuilder.with_vertical_ordering (b : ImageDescriptorBuilder)
    (ordering : VerticalOrdering) : ImageDescriptorBuilder :=
  { b with vertical_ordering := ordering }

/-- The sink error: the sink's error value together with the bytes the sink
had accepted when the failing write was attempted.  Models the `io::Error`
returned through `?` (the `written` component records the sink state at the
moment of failure, which in Rust lives on in the sink itself). -/
structure SinkError where
  errVal : Nat
  written : List Nat
  deriving DecidableEq, Repr

/-- The byte sink (`T: Write`).  `limit = none` models a sink that never
fails; `limit = some n` models a sink that accepts at most `n` bytes and
fails on the first write that would exceed that, delivering none of that
write's bytes.  `errVal` is the error the sink reports on failure. -/
structure Sink where
  limit : Option Nat
  errVal : Nat
  written : List Nat
  deriving DecidableEq, Repr

/-- One write call delivering `chunk` to the sink: succeeds (appending the
whole chunk) unless the sink's byte limit would be exceeded. -/
def Sink.writeBytes (s : Sink) (chunk : List Nat) : Except SinkError Sink :=
  match s.limit with
  | none => .ok { s with written := s.written ++ chunk }
  | some n =>
      if s.written.length + chunk.length ≤ n then
        .ok { s with written := s.written ++ chunk }
      else
        .error ⟨s.errVal, s.written⟩

/-- `w.write_u8(x)`. -/
def write_u8 (s : Sink) (x : Nat) : Except SinkError Sink :=
  s.writeBytes [x % 256]

/-- `w.write_u16::<LittleEndian>(x)`. -/
def write_u16 (s : Sink) (x : Nat) : Except SinkError Sink :=
  s.writeBytes (le16 x)

/-- `w.write_u32::<LittleEndian>(x)`. -/
def write_u32 (s : Sink) (x : Nat) : Except SinkError Sink :=
  s.writeBytes (le32 x)

/-- `w.write_all(bytes)`. -/
def write_all (s : Sink) (bytes : List Nat) : Except SinkError Sink :=
  s.writeBytes bytes

/-- `struct ColorMapSpecification` from the source. -/
structure ColorMapSpecification where
  first_entry_index : Nat
  entry_count : Nat
  color_depth : BitDepth
  deriving DecidableEq, Repr

/-- Derived `Default` for `ColorMapSpecification`: zero indices and count,
and the *default bit depth* (`BitDepth::B32`, i.e. 32) for `color_depth`. -/
def ColorMapSpecification.default : ColorMapSpecification :=
  ⟨0, 0, BitDepth.default⟩

/-- `ColorMapSpecification::write_to`. -/
def ColorMapSpecification.write_to (c : ColorMapSpecification) (w : Sink) :
    Except SinkError Sink := do
  let w ← write_u16 w c.first_entry_index
  let w ← write_u16 w c.entry_count
  let w ← write_u8 w c.color_depth.val
  pure w

/-- `struct ImageSpecification` from the source. -/
structure ImageSpecification where
  x_origin : Nat
  y_origin : Nat
  width : Nat
  height : Nat
  pixel_depth : BitDepth
  descriptor : ImageDescriptor
  deriving DecidableEq, Repr

/-- Derived `Default` for `ImageSpecification`: zero origins and dimensions,
default pixel depth (32), zero descriptor. -/
def ImageSpecification.default : ImageSpecification :=
  ⟨0, 0, 0, 0, BitDepth.default, ImageDescriptor.default⟩

/-- `ImageSpecification::write_to`. -/
def ImageSpecification.write_to (i : ImageSpecification) (w : Sink) :
    Except SinkError Sink := do
  let w ← write_u16 w i.x_origin
  let w ← write_u16 w i.y_origin
  let w ← write_u16 w i.width
  let w ← write_u16 w i.height
  let w ← write_u8 w i.pixel_depth.val
  let w ← write_u8 w i.descriptor.val
  pure w

/-- `struct Header` from the source. -/
structure Header where
  id_length : Nat
  color_map_type : ColorMapType
  image_type : ImageType
  color_map_specification : ColorMapSpecification
  image_specification : ImageSpecification
  deriving DecidableEq, Repr

/-- Derived `Default` for `Header`. -/
def Header.default : Header :=
  ⟨0, ColorMapType.default, ImageType.default,
    ColorMapSpecification.default, ImageSpecification.default⟩

/-- `Header::write_to`. -/
def Header.write_to (h : Header) (w : Sink) : Except SinkError Sink := do
  let w ← write_u8 w h.id_length
  let w ← write_u8 w h.color_map_type.val
  let w ← write_u8 w h.image_type.val
  let w ← h.color_map_specification.write_to w
  let w ← h.image_specification.write_to w
  pure w

/-- `struct Footer` from the source. -/
structure Footer where
  extension_offset : Nat
  developer_offset : Nat
  signature : List Nat
  dot : Nat
  nul : Nat
  deriving DecidableEq, Repr

/-- `impl Default for Footer`: zero offsets, the signature constant, `.`
(0x2E) and NUL. -/
def Footer.default : Footer :=
  ⟨0, 0, SIGNATURE, 46, 0⟩

/-- `Footer::write_to`. -/
def Footer.write_to (f : Footer) (w : Sink) : Except SinkError Sink := do
  let w ← write_u32 w f.extension_offset
  let w ← write_u32 w f.developer_offset
  let w ← write_all w f.signature
  let w ← write_u8 w f.dot
  let w ← write_u8 w f.nul
  pure w

/-- `struct Image` from the source: pixel buffer plus dimensions. -/
structure Image where
  data : List Nat
  width : Nat
  height : Nat
  deriving DecidableEq, Repr

/-- The platform size type is 64 bits wide. -/
def USIZE : Nat := 2 ^ 64

/-- `Image::effective_size`: `width as usize * BitDepth::B32.0 as usize / 8
* height as usize`, with each arithmetic step taken in the platform size
type (wrapping modulo `2^64`). -/
def Image.effective_size (width height : Nat) : Nat :=
  width * BitDepth.B32.val % USIZE / 8 * height % USIZE

/-- `Image::new`: stores the three values verbatim, no validation. -/
def Image.new (width height : Nat) (data : List Nat) : Image :=
  ⟨data, width, height⟩

/-- `Image::write_to`: build a header carrying this image's dimensions and
the packed descriptor (alpha 8, vertical top-to-bottom), all other fields
defaulted; then write header, raw pixel bytes, and default footer. -/
def Image.write_to (img : Image) (w : Sink) : Except SinkError Sink := do
  let header : Header :=
    { Header.default with
      image_specification :=
        { ImageSpecification.default with
          width := img.width
          height := img.height
          descriptor :=
            ((ImageDescriptorBuilder.new.with_alpha
                BitDepth.B8).with_vertical_ordering
                VerticalOrdering.TopToBottom).build } }
  let footer := Footer.default
  let w ← header.write_to w
  let w ← write_all w img.data
  let w ← footer.write_to w
  pure w

/-! ### Derived byte-level characterization of the output -/

/-- The 18 header bytes the encoder emits for dimensions `w × h`:
id-length 0, color-map type 0, image type 2, color-map first-entry index
and entry count 0, color-map entry depth 32 (the default `BitDepth`),
zero origins, little-endian width and height, pixel depth 32,
descriptor 40. -/
def headerBytes (w h : Nat) : List Nat :=
  [0, 0, 2, 0, 0, 0, 0, 32, 0, 0, 0, 0,
    w % 256, w / 256 % 256, h % 256, h / 256 % 256, 32, 40]

/-- The 26 footer bytes: two zero u32 offsets, the signature, `.`, NUL. -/
def footerBytes : List Nat :=
  [0, 0, 0, 0, 0, 0, 0, 0] ++ SIGNATURE ++ [46, 0]

/-- The full byte stream `Image.write_to` delivers on a sink that never
fails: header, raw pixel data, footer. -/
def outputBytes (img : Image) : List Nat :=
  headerBytes img.width img.height ++ img.data ++ footerBytes

/-- Run a list of write calls (chunks) against a sink in order, stopping at
the first failure, as the `?` operator does. -/
def writeChunks (s : Sink) : List (List Nat) → Except SinkError Sink
  | [] => pure s
  | c :: cs => do
      let t ← s.writeBytes c
      writeChunks t cs

/-- The exact sequence of sink write calls `Image.write_to` performs. -/
def imageChunks (img : Image) : List (List Nat) :=
  [[0], [0], [2], le16 0, le16 0, [32],
    le16 0, le16 0, le16 img.width, le16 img.height, [32], [40],
    img.data,
    le32 0, le32 0, SIGNATURE, [46], [0]]

/-- `Image.write_to` is exactly the chunked write sequence `imageChunks`. -/
theorem write_to_eq_writeChunks (img : Image) (s : Sink) :
    img.write_to s = writeChunks s (imageChunks img) := by
  simp only [Image.write_to, Header.write_to, ColorMapSpecification.write_to,
    ImageSpecification.write_to, Footer.write_to, writeChunks, imageChunks,
    write_u8, write_u16, write_u32, write_all, Header.default,
    ColorMapSpecification.default, ImageSpecification.default,
    Footer.default, ColorMapType.default, ImageType.default,
    BitDepth.default, BitDepth.B32, BitDepth.B8, ColorMapType.ABSENT,
    ImageType.TRUE_COLOR, ImageDescriptor.default,
    ImageDescriptorBuilder.new, ImageDescriptorBuilder.default,
    ImageDescriptorBuilder.with_alpha,
    ImageDescriptorBuilder.with_vertical_ordering,
    ImageDescriptorBuilder.build, HorizontalOrdering.default,
    VerticalOrdering.default,
    ImageDescriptorBuilder.HORIZONTAL_ORDERING_BITMASK,
    ImageDescriptorBuilder.VERTICAL_ORDERING_BITMASK,
    bind_assoc, pure_bind, bind_pure]
  rfl

/-- Joining the chunk sequence gives the output byte stream. -/
theorem imageChunks_flatten (img : Image) :
    (imageChunks img).flatten = outputBytes img := by
  simp [imageChunks, outputBytes, headerBytes, footerBytes, le16, le32,
    SIGNATURE]

/-- A sink that never fails accepts every chunk, appending their bytes. -/
theorem writeChunks_none (cs : List (List Nat)) (s : Sink)
    (hs : s.limit = none) :
    writeChunks s cs = .ok { s with written := s.written ++ cs.flatten } := by
  induction cs generalizing s with
  | nil => simp [writeChunks, pure, Except.pure]
  | cons c cs ih =>
      have hw : s.writeBytes c = .ok { s with written := s.written ++ c } := by
        simp [Sink.writeBytes, hs]
      rw [writeChunks, hw]
      show writeChunks { s with written := s.written ++ c } cs = _
      rw [ih _ (by simp [hs])]
      simp [hs, List.append_assoc]

/-- On a sink that never fails, `write_to` succeeds and delivers exactly
`outputBytes`. -/
theorem write_to_ok (img : Image) (e : Nat) :
    img.write_to ⟨none, e, []⟩ = .ok ⟨none, e, outputBytes img⟩ := by
  rw [write_to_eq_writeChunks, writeChunks_none _ _ rfl]
  simp [imageChunks_flatten]

/-- If the chunked write fails, the error carries the sink's own error
value, the bytes delivered so far form a prefix of the full stream, and
the sink's byte limit was never exceeded (nothing was written past the
failing call). -/
theorem writeChunks_error (cs : List (List Nat)) (s : Sink) (n : Nat)
    (err : SinkError) (hs : s.limit = some n) (hinv : s.written.length ≤ n)
    (h : writeChunks s cs = .error err) :
    err.errVal = s.errVal ∧
      (∃ rest, err.written ++ rest = s.written ++ cs.flatten) ∧
      err.written.length ≤ n := by
  induction cs generalizing s with
  | nil => simp [writeChunks, pure, Except.pure] at h
  | cons c cs ih =>
      rw [writeChunks] at h
      by_cases hc : s.written.length + c.length ≤ n
      · have hw : s.writeBytes c = .ok { s with written := s.written ++ c } := by
          simp [Sink.writeBytes, hs, hc]
        rw [hw] at h
        have h2 : writeChunks { s with written := s.written ++ c } cs = .error err := h
        obtain ⟨h1, ⟨rest, hr⟩, h3⟩ :=
          ih { s with written := s.written ++ c } (by simpa using hs)
            (by simp only [List.length_append]; omega) h2
        refine ⟨h1, ⟨rest, ?_⟩, h3⟩
        simpa [List.append_assoc] using hr
      · have hw : s.writeBytes c = .error ⟨s.errVal, s.written⟩ := by
          simp [Sink.writeBytes, hs, hc]
        rw [hw] at h
        have h2 : (Except.error ⟨s.errVal, s.written⟩ :
            Except SinkError Sink) = .error err := h
        injection h2 with h2
        subst h2
        exact ⟨rfl, ⟨c ++ cs.flatten, by simp⟩, hinv⟩

/-- The chunked write succeeds exactly when the sink's byte limit can
accommodate every byte of the stream. -/
theorem writeChunks_ok_iff (cs : List (List Nat)) (s : Sink) (n : Nat)
    (hs : s.limit = some n) (hinv : s.written.length ≤ n) :
    (∃ t, writeChunks s cs = .ok t) ↔
      s.written.length + cs.flatten.length ≤ n := by
  induction cs generalizing s with
  | nil =>
      simp only [writeChunks, List.flatten_nil, List.length_nil]
      constructor
      · intro _; omega
      · intro _; exact ⟨s, rfl⟩
  | cons c cs ih =>
      rw [writeChunks]
      by_cases hc : s.written.length + c.length ≤ n
      · have hw : s.writeBytes c = .ok { s with written := s.written ++ c } := by
          simp [Sink.writeBytes, hs, hc]
        rw [hw]
        have := ih { s with written := s.written ++ c } (by simpa using hs)
          (by simp only [List.length_append]; omega)
        simp only [List.length_append] at this
        constructor
        · intro hex
          obtain ⟨t, ht⟩ := hex
          have ht2 : writeChunks { s with written := s.written ++ c } cs = .ok t := ht
          have := this.mp ⟨t, ht2⟩
          simp only [List.flatten_cons, List.length_append]
          omega
        · intro hlen
          simp only [List.flatten_cons, List.length_append] at hlen
          obtain ⟨t, ht⟩ := this.mpr (by omega)
          exact ⟨t, ht⟩
      · have hw : s.writeBytes c = .error ⟨s.errVal, s.written⟩ := by
          simp [Sink.writeBytes, hs, hc]
        rw [hw]
        constructor
        · intro hex
          obtain ⟨t, ht⟩ := hex
          have ht2 : (Except.error ⟨s.errVal, s.written⟩ :
              Except SinkError Sink) = .ok t := ht
          exact Except.noConfusion ht2
        · intro hlen
          simp only [List.flatten_cons, List.length_append] at hlen
          omega

/-- An `Except` value is an error exactly when it is not a success. -/
theorem except_error_iff_not_ok {ε α : Type} (x : Except ε α) :
    (∃ e, x = .error e) ↔ ¬ ∃ t, x = .ok t := by
  cases x <;> simp

/-! ### Concrete inputs used by the claim theorems -/

/-- The 1×1 image with pixel bytes `[0x11, 0x22, 0x33, 0x44]`. -/
def goldenImage : Image := Image.new 1 1 [17, 34, 51, 68]

/-- The 48-byte golden vector as the spec states it: the color-map entry
depth byte at offset 7 is claimed to be 0. -/
def specGoldenBytes : List Nat :=
  [0, 0, 2, 0, 0, 0, 0, 0, 0, 0, 0, 0, 1, 0, 1, 0, 32, 40,
    17, 34, 51, 68,
    0, 0, 0, 0, 0, 0, 0, 0,
    84, 82, 85, 69, 86, 73, 83, 73, 79, 78, 45, 88, 70, 73, 76, 69,
    46, 0]

/-- The 48-byte stream the encoder actually produces for `goldenImage`:
identical to the spec's vector except that the color-map entry depth byte
at offset 7 is 32 (the default `BitDepth`). -/
def actualGoldenBytes : List Nat :=
  [0, 0, 2, 0, 0, 0, 0, 32, 0, 0, 0, 0, 1, 0, 1, 0, 32, 40,
    17, 34, 51, 68,
    0, 0, 0, 0, 0, 0, 0, 0,
    84, 82, 85, 69, 86, 73, 83, 73, 79, 78, 45, 88, 70, 73, 76, 69,
    46, 0]

/-- The output stream always has `18 + data.length + 26` bytes. -/
theorem outputBytes_length (img : Image) :
    (outputBytes img).length = 18 + img.data.length + 26 := by
  simp [outputBytes, headerBytes, footerBytes, SIGNATURE,
    List.length_append]
  omega

/-! ### Claim theorems -/

/-- C1 (counterexample): writing the 1×1 image with pixel data
`[0x11,0x22,0x33,0x44]` does NOT produce the spec's golden vector: the
byte at offset 7 (color-map entry depth) is 32, not 0, because the
derived default of `ColorMapSpecification` takes the default `BitDepth`
(32) for its `color_depth` field. -/
theorem golden_encode_spec_vector_refuted :
    (goldenImage.write_to ⟨none, 0, []⟩).map Sink.written ≠
      .ok specGoldenBytes := by
  rw [write_to_ok]
  simp only [Except.map, Except.ok.injEq, ne_eq]
  decide

/-- C1 (amended): writing the 1×1 image with pixel data
`[0x11,0x22,0x33,0x44]` to a sink that never fails produces exactly the
48-byte sequence whose header is `[0,0,2, 0,0,0,0,32, 0,0,0,0, 1,0, 1,0,
32, 40]` (color-map entry depth 32 at offset 7, all other color-map bytes
zero), followed by the 4 pixel bytes and the 26-byte footer. -/
theorem golden_encode :
    (goldenImage.write_to ⟨none, 0, []⟩).map Sink.written =
      .ok actualGoldenBytes ∧ actualGoldenBytes.length = 48 := by
  rw [write_to_ok]
  exact ⟨by simp only [Except.map, Except.ok.injEq]; decide, by decide⟩

/-- C2 (counterexample): for the 0×0 image, the five bytes written at
offsets 3–7 are `[0,0,0,0,32]`, not all zero — the color-map entry depth
byte is 32. -/
theorem color_map_bytes_zero_refuted :
    ¬ ((Image.new 0 0 []).write_to ⟨none, 0, []⟩).map
        (fun t => (t.written.drop 3).take 5) = .ok [0, 0, 0, 0, 0] := by
  rw [write_to_ok]
  simp only [Except.map, Except.ok.injEq]
  decide

/-- C2 (amended): for every Image, the five color-map-specification bytes
at offsets 3–7 of the output are `[0,0,0,0,32]`: first-entry index and
entry count are zero, but the entry-depth byte is 32 (the default
`BitDepth`). -/
theorem color_map_spec_bytes (img : Image) (e : Nat) :
    (img.write_to ⟨none, e, []⟩).map
        (fun t => (t.written.drop 3).take 5) = .ok [0, 0, 0, 0, 32] := by
  rw [write_to_ok]
  rfl

/-- C3: for every Image, the descriptor byte at offset 17 of the output is
40 = `0b00101000` (alpha depth 8, left-to-right, top-to-bottom),
independent of dimensions and pixel data. -/
theorem descriptor_byte_always_40 (img : Image) (e : Nat) :
    (img.write_to ⟨none, e, []⟩).map
        (fun t => (t.written.drop 17).take 1) = .ok [40] := by
  rw [write_to_ok]
  rfl

/-- C4: the descriptor packer computes
`alpha OR (16 if right-to-left) OR (32 if top-to-bottom)` for every
input; in particular (8, left-to-right, top-to-bottom) packs 40 and
(0, right-to-left, bottom-to-top) packs 16. -/
theorem descriptor_packer_formula :
    (∀ (a : BitDepth) (h : HorizontalOrdering) (v : VerticalOrdering),
      (ImageDescriptorBuilder.mk a h v).build =
        ⟨a.val ||| (if h = HorizontalOrdering.RightToLeft then 16 else 0) |||
          (if v = VerticalOrdering.TopToBottom then 32 else 0)⟩) ∧
    (ImageDescriptorBuilder.mk ⟨8⟩ HorizontalOrdering.LeftToRight
      VerticalOrdering.TopToBottom).build = ⟨40⟩ ∧
    (ImageDescriptorBuilder.mk ⟨0⟩ HorizontalOrdering.RightToLeft
      VerticalOrdering.BottomToTop).build = ⟨16⟩ := by
  refine ⟨?_, by decide, by decide⟩
  intro a h v
  cases h <;> cases v <;>
    simp [ImageDescriptorBuilder.build,
      ImageDescriptorBuilder.HORIZONTAL_ORDERING_BITMASK,
      ImageDescriptorBuilder.VERTICAL_ORDERING_BITMASK,
      Nat.zero_or, Nat.or_zero]

/-- C5: when the pixel buffer length equals `width*height*4`, a
successful write delivers exactly `18 + width*height*4 + 26` bytes; and
the 0×0 image with empty buffer yields exactly the 44 header+footer
bytes, with an empty pixel section. -/
theorem output_length (img : Image) (e : Nat)
    (hlen : img.data.length = img.width * img.height * 4) :
    (img.write_to ⟨none, e, []⟩).map (fun t => t.written.length) =
      .ok (18 + img.width * img.height * 4 + 26) ∧
    ((Image.new 0 0 []).write_to ⟨none, e, []⟩).map Sink.written =
      .ok (headerBytes 0 0 ++ [] ++ footerBytes) ∧
    (headerBytes 0 0 ++ [] ++ footerBytes).length = 44 := by
  refine ⟨?_, ?_, by decide⟩
  · rw [write_to_ok]
    simp only [Except.map, Except.ok.injEq, outputBytes_length, hlen]
  · rw [write_to_ok]
    rfl

/-- C5 witness: a 1×2 image with an 8-byte buffer writes 18+8+26 bytes. -/
theorem output_length_witness :
    ((Image.new 1 2 [5, 5, 5, 5, 5, 5, 5, 5]).write_to ⟨none, 0, []⟩).map
        (fun t => t.written.length) = .ok (18 + 1 * 2 * 4 + 26) :=
  (output_length (Image.new 1 2 [5, 5, 5, 5, 5, 5, 5, 5]) 0 (by decide)).1

/-- C6: for every Image, the bytes of the output past the header and pixel
data — which are exactly its last 26 bytes, since the total length is
`18 + data.length + 26` — are the zero u32 extension offset, the zero u32
developer offset, the ASCII signature `TRUEVISION-XFILE`, `.` (0x2E), and
NUL. -/
theorem footer_trailing_bytes (img : Image) (e : Nat) :
    (img.write_to ⟨none, e, []⟩).map
        (fun t => t.written.drop (18 + img.data.length)) =
      .ok ([0, 0, 0, 0] ++ [0, 0, 0, 0] ++
        [84, 82, 85, 69, 86, 73, 83, 73, 79, 78, 45, 88, 70, 73, 76, 69] ++
        [46] ++ [0]) ∧
    (img.write_to ⟨none, e, []⟩).map (fun t => t.written.length) =
      .ok (18 + img.data.length + 26) := by
  constructor
  · rw [write_to_ok]
    have hsplit : outputBytes img =
        (headerBytes img.width img.height ++ img.data) ++ footerBytes := by
      simp [outputBytes, List.append_assoc]
    have hlen : (headerBytes img.width img.height ++ img.data).length =
        18 + img.data.length := by
      simp [headerBytes]
      omega
    simp only [Except.map, hsplit]
    rw [← hlen, List.drop_left]
    simp [footerBytes, SIGNATURE]
  · rw [write_to_ok]
    simp only [Except.map, Except.ok.injEq, outputBytes_length]

/-- C7: the write fails exactly when the sink fails.  On a sink that never
fails, every Image (validated or not) writes successfully.  On a sink that
fails once its byte limit `n` is exceeded: any reported error carries the
sink's own error value unchanged, the bytes delivered form a prefix of the
full 18+data+26 stream, and no byte beyond the limit was pushed through;
and an error occurs precisely when the full stream exceeds the limit. -/
theorem write_error_propagation (img : Image) (n e : Nat) :
    ((img.write_to ⟨none, e, []⟩).map Sink.written = .ok (outputBytes img)) ∧
    (∀ err, img.write_to ⟨some n, e, []⟩ = .error err →
      err.errVal = e ∧ (∃ rest, err.written ++ rest = outputBytes img) ∧
        err.written.length ≤ n) ∧
    ((∃ err, img.write_to ⟨some n, e, []⟩ = .error err) ↔
      n < (outputBytes img).length) := by
  refine ⟨?_, ?_, ?_⟩
  · rw [write_to_ok]; rfl
  · intro err herr
    rw [write_to_eq_writeChunks] at herr
    obtain ⟨h1, ⟨rest, hr⟩, h3⟩ :=
      writeChunks_error (imageChunks img) ⟨some n, e, []⟩ n err rfl
        (by simp) herr
    refine ⟨h1, ⟨rest, ?_⟩, h3⟩
    rw [hr]
    simp [imageChunks_flatten]
  · rw [write_to_eq_writeChunks]
    rw [except_error_iff_not_ok]
    rw [writeChunks_ok_iff (imageChunks img) ⟨some n, e, []⟩ n rfl (by simp)]
    simp [imageChunks_flatten]

/-- C7 witness: for the 1×1 image `[1,2,3,4]` and a sink that accepts at
most 5 bytes with error value 7, the write reports an error and that
error carries the sink's value 7. -/
theorem write_error_propagation_witness :
    ∃ err, (Image.new 1 1 [1, 2, 3, 4]).write_to ⟨some 5, 7, []⟩ =
      .error err ∧ err.errVal = 7 := by
  obtain ⟨err, herr⟩ :=
    (write_error_propagation (Image.new 1 1 [1, 2, 3, 4]) 5 7).2.2.mpr
      (by decide)
  exact ⟨err,herr,
    ((write_error_propagation (Image.new 1 1 [1, 2, 3, 4]) 5 7).2.1
      err herr).1⟩

/-- C8: the write is deterministic and read-only: on any two fresh sinks
that never fail (whatever their error values), the same Image produces
byte-identical output; the embedding is a pure function of the Image, so
no field of the Image is changed. -/
theorem write_deterministic (img : Image) (s1 s2 : Sink)
    (h1l : s1.limit = none) (h2l : s2.limit = none)
    (h1w : s1.written = []) (h2w : s2.written = []) :
    (img.write_to s1).map Sink.written =
      (img.write_to s2).map Sink.written := by
  obtain ⟨l1, e1, w1⟩ := s1
  obtain ⟨l2, e2, w2⟩ := s2
  obtain rfl : l1 = none := h1l
  obtain rfl : l2 = none := h2l
  obtain rfl : w1 = [] := h1w
  obtain rfl : w2 = [] := h2w
  rw [write_to_ok, write_to_ok]
  rfl

/-- C8 witness: the 1×1 image `[9,9,9,9]` writes the same bytes to two
fresh sinks with different error values. -/
theorem write_deterministic_witness :
    ((Image.new 1 1 [9, 9, 9, 9]).write_to ⟨none, 3, []⟩).map Sink.written =
      ((Image.new 1 1 [9, 9, 9, 9]).write_to ⟨none, 11, []⟩).map
        Sink.written :=
  write_deterministic (Image.new 1 1 [9, 9, 9, 9]) ⟨none, 3, []⟩
    ⟨none, 11, []⟩ rfl rfl rfl rfl

/-- C9: for all u16 width and height, `effective_size` computes
`width * height * 4` (the wrapping in the 64-bit platform size type never
bites for u16 inputs). -/
theorem effective_size_eq (w h : Nat) (hw : w < 2 ^ 16) (hh : h < 2 ^ 16) :
    Image.effective_size w h = w * h * 4 := by
  unfold Image.effective_size USIZE BitDepth.B32
  have h1 : w * 32 % 2 ^ 64 = w * 32 := Nat.mod_eq_of_lt (by omega)
  have h2 : w * 32 / 8 = w * 4 := by omega
  have h3 : w * 4 * h < 2 ^ 64 := by
    calc w * 4 * h < 2 ^ 18 * 2 ^ 16 := Nat.mul_lt_mul'' (by omega) hh
    _ ≤ 2 ^ 64 := by norm_num
  simp only [h1, h2]
  rw [Nat.mod_eq_of_lt h3]
  ring

/-- C9 witness: `effective_size 3 5 = 60`. -/
theorem effective_size_eq_witness : Image.effective_size 3 5 = 3 * 5 * 4 :=
  effective_size_eq 3 5 (by norm_num) (by norm_num)

/-- C10: a builder on which `with_alpha` was never called keeps the
default alpha depth `B32` (value 32, which does not fit below the 4-bit
alpha field boundary of 16) and the default vertical ordering
bottom-to-top, yet packs the byte 32 — exactly the vertical-ordering
bitmask, so bit 5 reads as set. -/
theorem default_builder_packs_32 :
    ImageDescriptorBuilder.new.build = ⟨32⟩ ∧
    ImageDescriptorBuilder.new.vertical_ordering =
      VerticalOrdering.BottomToTop ∧
    ImageDescriptorBuilder.new.alpha_depth = BitDepth.B32 ∧
    ¬ BitDepth.B32.val < 16 ∧
    (32 : Nat) &&& ImageDescriptorBuilder.VERTICAL_ORDERING_BITMASK ≠ 0 := by
  decide

end Tga
